import Mathlib

/-!
# Book catalog API (`routes/api.js`)

A shallow embedding of the routing module: the cached connection accessor
`getBooksCollection`, the two response-shaping functions `buildListItem` and
`buildBook`, and the six request handlers registered on `/api/books` and
`/api/books/:id`.

Each handler is a function from the environment's answers (does a connection
attempt succeed, does the database operation get through, which identifier the
engine assigns) and the current world (configuration value, cached promise,
contents of the `books` collection) to a response, the next world and the list
of effects the handler performed.
-/

namespace Books

/-! ## JavaScript values -/

/-- Values a request-body field or a stored document field can hold: the JSON
scalars, arrays of values, and `undefined` for an absent field. Numbers are the
integral ones plus `NaN`. Nested objects are not part of the embedding: the
fields of a book are text and sequences of text. -/
inductive JSValue where
  | undefined
  | null
  | bool (b : Bool)
  | number (n : Int)
  | nan
  | string (s : String)
  | array (xs : List JSValue)

/-- JavaScript truthiness, the negation of what `!v` tests. -/
def JSValue.truthy : JSValue → Bool
  | .undefined => false
  | .null => false
  | .bool b => b
  | .number n => n != 0
  | .nan => false
  | .string s => s != ""
  | .array _ => true

/-- The source's `Array.isArray(v)`. -/
def JSValue.isArray : JSValue → Bool
  | .array _ => true
  | _ => false

/-- The source's `Array.isArray(v) ? v : []`. -/
def arrayOrEmpty (v : JSValue) : List JSValue :=
  match v with
  | .array xs => xs
  | _ => []

/-! ## Identifiers of the storage engine -/

/-- The sixteen canonical (lower-case) hexadecimal digits. -/
def lowerHexChars : List Char :=
  ['0', '1', '2', '3', '4', '5', '6', '7', '8', '9', 'a', 'b', 'c', 'd', 'e', 'f']

/-- The upper-case hexadecimal letters. -/
def upperHexChars : List Char := ['A', 'B', 'C', 'D', 'E', 'F']

def isLowerHexChar (c : Char) : Bool := decide (c ∈ lowerHexChars)

def isHexChar (c : Char) : Bool := decide (c ∈ lowerHexChars ∨ c ∈ upperHexChars)

/-- Canonical form of a hexadecimal digit. -/
def toLowerHex (c : Char) : Char :=
  match c with
  | 'A' => 'a'
  | 'B' => 'b'
  | 'C' => 'c'
  | 'D' => 'd'
  | 'E' => 'e'
  | 'F' => 'f'
  | _ => c

/-- Well-formedness of the canonical text of an identifier: 24 lower-case
hexadecimal digits. -/
def canonicalHex (cs : List Char) : Bool := cs.length == 24 && cs.all isLowerHexChar

/-- Modelled from the spec: the storage engine's identifier type (the driver is
not part of the repository). An identifier is "the opaque, engine-assigned,
24-hex-character string"; it is kept as its canonical text. -/
structure ObjectId where
  hex : List Char
  wf : canonicalHex hex = true
deriving DecidableEq

/-- The driver's `toString()` on an identifier. -/
def ObjectId.toString (o : ObjectId) : String := String.mk o.hex

/-- Modelled from the spec: the driver's `ObjectId.isValid`, which is not part of
the repository. The spec's words: an identifier in a path parameter "must
validate as a syntactically well-formed identifier for the storage engine's
identifier type (a 24-character hexadecimal string)". -/
def ObjectId.isValid (id : String) : Bool := id.data.length == 24 && id.data.all isHexChar

/-- Modelled from the spec: the driver's `new ObjectId(id)` on a string. It
yields the identifier written by the 24 hexadecimal digits of `id`, and `none`
stands for the exception the constructor raises on any other string. -/
def ObjectId.ofString (id : String) : Option ObjectId :=
  if h : canonicalHex (id.data.map toLowerHex) = true then
    some ⟨id.data.map toLowerHex, h⟩
  else
    none

/-! ## Stored documents and the `books` collection -/

/-- A document of the `books` collection. A field that is absent from the stored
document is `JSValue.undefined`. -/
structure Doc where
  _id : ObjectId
  title : JSValue
  comments : JSValue

/-- Failures of the database layer: no connection string, a connection attempt
that fails, an operation that does not get through, an insert under an
identifier already present, a `$push` onto a field that is not a sequence. -/
inductive DbError where
  | configMissing
  | connectFailed
  | operationFailed
  | duplicateKey
  | notAnArray
deriving DecidableEq, Repr

/-- What can be thrown inside a handler's `try` block: a database failure, or the
exception of `new ObjectId(id)` on a string that is no identifier. -/
inductive Thrown where
  | database (e : DbError)
  | invalidObjectId
deriving DecidableEq, Repr

/-- Modelled from the spec: `collection.find({}, ...).toArray()`, every stored
document in the engine's retrieval order. The projection keeps `_id`, `title` and
`comments`, which are all the fields a `Doc` has. -/
def Collection.find (books : List Doc) : List Doc := books

/-- Modelled from the spec: `collection.insertOne(doc)`. Identifiers are unique
in a collection, so an insert under an identifier already present fails. -/
def Collection.insertOne (d : Doc) (books : List Doc) : Except DbError (List Doc) :=
  if books.any (fun b => b._id == d._id) then .error .duplicateKey else .ok (books ++ [d])

/-- Modelled from the spec: `collection.deleteMany({})`. -/
def Collection.deleteMany (_books : List Doc) : List Doc := []

/-- Modelled from the spec: `collection.findOne({ _id })`. -/
def Collection.findOne (id : ObjectId) (books : List Doc) : Option Doc :=
  books.find? (fun b => b._id == id)

/-- Modelled from the spec: the update `{ $push: { comments: comment } }` on one
document: "append `comment` to the end of the Book's comments sequence". An
absent field becomes a one-element sequence; a field holding anything else than
a sequence makes the engine reject the update. -/
def pushComment (comment : JSValue) (d : Doc) : Except DbError Doc :=
  match d.comments with
  | .array xs => .ok { d with comments := .array (xs ++ [comment]) }
  | .undefined => .ok { d with comments := .array [comment] }
  | _ => .error .notAnArray

/-- Modelled from the spec: `collection.findOneAndUpdate({ _id }, { $push: ... },
{ returnOriginal: false })`: the first document with that identifier is updated
in place and its post-update state is returned (`result.value`); `none` is the
`null` value returned when no document matches. -/
def Collection.findOneAndUpdate (id : ObjectId) (comment : JSValue) :
    List Doc → Except DbError (Option Doc × List Doc)
  | [] => .ok (none, [])
  | d :: ds =>
    if d._id == id then
      match pushComment comment d with
      | .ok d1 => .ok (some d1, d1 :: ds)
      | .error e => .error e
    else
      match Collection.findOneAndUpdate id comment ds with
      | .ok (r, ds1) => .ok (r, d :: ds1)
      | .error e => .error e

/-- Modelled from the spec: `collection.deleteOne({ _id })`: removes the first
document with that identifier, if any, and reports `deletedCount`. -/
def Collection.deleteOne (id : ObjectId) (books : List Doc) : Nat × List Doc :=
  (if books.any (fun b => b._id == id) then 1 else 0, books.eraseP (fun b => b._id == id))

/-! ## Responses, effects, world -/

/-- The `List-item view` object built by `buildListItem`. -/
structure ListItem where
  _id : String
  title : JSValue
  commentcount : Nat

/-- The `Full view` object built by `buildBook`. -/
structure Book where
  _id : String
  title : JSValue
  comments : List JSValue

/-- What a handler sends: `res.type('text').send(s)` or `res.json(value)`, the
JSON value being kept as the object handed to `res.json`. -/
inductive Payload where
  | text (s : String)
  | jsonList (items : List ListItem)
  | jsonBook (b : Book)
  | jsonCreated (_id : String) (title : JSValue)

/-- An HTTP response: status code (200 unless `res.status` is called) and body. -/
structure Response where
  status : Nat
  body : Payload

/-- Effects a handler performs outside the response: a connection attempt, a
database operation, a line on the server log. -/
inductive Effect where
  | connect
  | find
  | insertOne
  | deleteMany
  | findOne
  | findOneAndUpdate
  | deleteOne
  | consoleError (msg : String)
deriving DecidableEq, Repr

/-- Module state and database contents. `MONGO_URI` is `process.env.DB` as read
when the module is loaded; `booksCollectionPromise` is the module variable of
that name, `none` while it is `undefined`, otherwise the (settled) promise that
was stored in it: resolved with the collection handle or rejected. -/
structure World where
  MONGO_URI : Option String
  booksCollectionPromise : Option (Except DbError Unit)
  books : List Doc

/-- The world when the module has just been loaded. -/
def World.init (uri : Option String) (books : List Doc) : World :=
  { MONGO_URI := uri, booksCollectionPromise := none, books := books }

/-- Answers of the environment during one request. -/
structure Env where
  /-- Whether `MongoClient.connect` succeeds, should it be called. -/
  connectOk : Bool
  /-- Whether the database operation of the request reaches the engine. -/
  opOk : Bool
  /-- The identifier assigned to a document inserted by the request. -/
  freshId : ObjectId

/-- Value, next world and effects of a computation. -/
structure Result (α : Type) where
  val : α
  world : World
  effects : List Effect

/-- The body of a request: the fields the handlers read, `undefined` when absent. -/
structure ReqBody where
  title : JSValue
  comment : JSValue

/-- The source's `!MONGO_URI`: unset or empty. -/
def uriFalsy (uri : Option String) : Bool :=
  match uri with
  | none => true
  | some s => s == ""

/-! ## The connection accessor -/

/-- The source's `getBooksCollection`. A promise already stored in
`booksCollectionPromise` is returned as it is. Otherwise, without a connection
string the call rejects and stores nothing; with one, `MongoClient.connect` is
called and the promise of its outcome (the collection handle, or the logged and
rethrown error) is stored in `booksCollectionPromise` and returned. -/
def getBooksCollection (env : Env) (w : World) : Result (Except DbError Unit) :=
  match w.booksCollectionPromise with
  | some p => { val := p, world := w, effects := [] }
  | none =>
    if uriFalsy w.MONGO_URI then
      { val := .error .configMissing, world := w, effects := [] }
    else if env.connectOk then
      { val := .ok (),
        world := { w with booksCollectionPromise := some (.ok ()) },
        effects := [.connect] }
    else
      { val := .error .connectFailed,
        world := { w with booksCollectionPromise := some (.error .connectFailed) },
        effects := [.connect, .consoleError "Failed to connect to database"] }

/-! ## Response shaping -/

/-- The source's `buildListItem`. -/
def buildListItem (doc : Doc) : ListItem :=
  let comments := arrayOrEmpty doc.comments
  { _id := doc._id.toString, title := doc.title, commentcount := comments.length }

/-- The source's `buildBook`. -/
def buildBook (doc : Doc) : Book :=
  let comments := arrayOrEmpty doc.comments
  { _id := doc._id.toString, title := doc.title, comments := comments }

/-- The response `res.type('text').send(s)`, status left at its default. -/
def sendText (s : String) : Response := { status := 200, body := .text s }

/-- The response `res.json(value)`, status left at its default. -/
def sendJson (p : Payload) : Response := { status := 200, body := p }

/-- The response `res.status(500).type('text').send('internal server error')`. -/
def internalServerError : Response := { status := 500, body := .text "internal server error" }

/-- The `catch` clause every handler has: an exception of the `try` block is
logged under the handler's label and answered with the 500 response. -/
def catchError (label : String) (t : Result (Except Thrown Response)) : Result Response :=
  match t.val with
  | .ok r => { val := r, world := t.world, effects := t.effects }
  | .error _ =>
    { val := internalServerError, world := t.world,
      effects := t.effects ++ [.consoleError label] }

/-! ## Handlers of `/api/books` -/

/-- The `try` block of `GET /api/books`. -/
def listBooksTry (env : Env) (w : World) : Result (Except Thrown Response) :=
  let c := getBooksCollection env w
  match c.val with
  | .error e => { val := .error (.database e), world := c.world, effects := c.effects }
  | .ok _ =>
    if env.opOk then
      { val := .ok (sendJson (.jsonList ((Collection.find c.world.books).map buildListItem))),
        world := c.world, effects := c.effects ++ [.find] }
    else
      { val := .error (.database .operationFailed), world := c.world,
        effects := c.effects ++ [.find] }

/-- The handler of `GET /api/books`. -/
def listBooks (env : Env) (w : World) : Result Response :=
  catchError "GET /api/books error" (listBooksTry env w)

/-- The `try` block of `POST /api/books`, entered with a truthy title. -/
def createBookTry (env : Env) (title : JSValue) (w : World) : Result (Except Thrown Response) :=
  let c := getBooksCollection env w
  match c.val with
  | .error e => { val := .error (.database e), world := c.world, effects := c.effects }
  | .ok _ =>
    if env.opOk then
      match Collection.insertOne { _id := env.freshId, title := title, comments := .array [] }
          c.world.books with
      | .ok books1 =>
        { val := .ok (sendJson (.jsonCreated env.freshId.toString title)),
          world := { c.world with books := books1 }, effects := c.effects ++ [.insertOne] }
      | .error e =>
        { val := .error (.database e), world := c.world, effects := c.effects ++ [.insertOne] }
    else
      { val := .error (.database .operationFailed), world := c.world,
        effects := c.effects ++ [.insertOne] }

/-- The handler of `POST /api/books`. -/
def createBook (env : Env) (body : ReqBody) (w : World) : Result Response :=
  let title := body.title
  if !title.truthy then
    { val := sendText "missing required field title", world := w, effects := [] }
  else
    catchError "POST /api/books error" (createBookTry env title w)

/-- The `try` block of `DELETE /api/books`. -/
def deleteAllTry (env : Env) (w : World) : Result (Except Thrown Response) :=
  let c := getBooksCollection env w
  match c.val with
  | .error e => { val := .error (.database e), world := c.world, effects := c.effects }
  | .ok _ =>
    if env.opOk then
      { val := .ok (sendText "complete delete successful"),
        world := { c.world with books := Collection.deleteMany c.world.books },
        effects := c.effects ++ [.deleteMany] }
    else
      { val := .error (.database .operationFailed), world := c.world,
        effects := c.effects ++ [.deleteMany] }

/-- The handler of `DELETE /api/books`. -/
def deleteAll (env : Env) (w : World) : Result Response :=
  catchError "DELETE /api/books error" (deleteAllTry env w)

/-! ## Handlers of `/api/books/:id` -/

/-- The `try` block of `GET /api/books/:id`, entered with a valid `bookId`. -/
def getBookTry (env : Env) (bookId : String) (w : World) : Result (Except Thrown Response) :=
  let c := getBooksCollection env w
  match c.val with
  | .error e => { val := .error (.database e), world := c.world, effects := c.effects }
  | .ok _ =>
    match ObjectId.ofString bookId with
    | none => { val := .error .invalidObjectId, world := c.world, effects := c.effects }
    | some oid =>
      if env.opOk then
        match Collection.findOne oid c.world.books with
        | none =>
          { val := .ok (sendText "no book exists"), world := c.world,
            effects := c.effects ++ [.findOne] }
        | some book =>
          { val := .ok (sendJson (.jsonBook (buildBook book))), world := c.world,
            effects := c.effects ++ [.findOne] }
      else
        { val := .error (.database .operationFailed), world := c.world,
          effects := c.effects ++ [.findOne] }

/-- The handler of `GET /api/books/:id`. -/
def getBook (env : Env) (bookId : String) (w : World) : Result Response :=
  if !ObjectId.isValid bookId then
    { val := sendText "no book exists", world := w, effects := [] }
  else
    catchError "GET /api/books/:id error" (getBookTry env bookId w)

/-- The `try` block of `POST /api/books/:id`, entered with a valid `bookId` and a
truthy comment. -/
def addCommentTry (env : Env) (bookId : String) (comment : JSValue) (w : World) :
    Result (Except Thrown Response) :=
  let c := getBooksCollection env w
  match c.val with
  | .error e => { val := .error (.database e), world := c.world, effects := c.effects }
  | .ok _ =>
    match ObjectId.ofString bookId with
    | none => { val := .error .invalidObjectId, world := c.world, effects := c.effects }
    | some oid =>
      if env.opOk then
        match Collection.findOneAndUpdate oid comment c.world.books with
        | .error e =>
          { val := .error (.database e), world := c.world,
            effects := c.effects ++ [.findOneAndUpdate] }
        | .ok (none, _) =>
          { val := .ok (sendText "no book exists"), world := c.world,
            effects := c.effects ++ [.findOneAndUpdate] }
        | .ok (some value, books1) =>
          { val := .ok (sendJson (.jsonBook (buildBook value))),
            world := { c.world with books := books1 },
            effects := c.effects ++ [.findOneAndUpdate] }
      else
        { val := .error (.database .operationFailed), world := c.world,
          effects := c.effects ++ [.findOneAndUpdate] }

/-- The handler of `POST /api/books/:id`. -/
def addComment (env : Env) (bookId : String) (body : ReqBody) (w : World) : Result Response :=
  let comment := body.comment
  if !ObjectId.isValid bookId then
    { val := sendText "no book exists", world := w, effects := [] }
  else if !comment.truthy then
    { val := sendText "missing required field comment", world := w, effects := [] }
  else
    catchError "POST /api/books/:id error" (addCommentTry env bookId comment w)

/-- The `try` block of `DELETE /api/books/:id`, entered with a valid `bookId`. -/
def deleteBookTry (env : Env) (bookId : String) (w : World) : Result (Except Thrown Response) :=
  let c := getBooksCollection env w
  match c.val with
  | .error e => { val := .error (.database e), world := c.world, effects := c.effects }
  | .ok _ =>
    match ObjectId.ofString bookId with
    | none => { val := .error .invalidObjectId, world := c.world, effects := c.effects }
    | some oid =>
      if env.opOk then
        let result := Collection.deleteOne oid c.world.books
        if result.1 = 0 then
          { val := .ok (sendText "no book exists"),
            world := { c.world with books := result.2 }, effects := c.effects ++ [.deleteOne] }
        else
          { val := .ok (sendText "delete successful"),
            world := { c.world with books := result.2 }, effects := c.effects ++ [.deleteOne] }
      else
        { val := .error (.database .operationFailed), world := c.world,
          effects := c.effects ++ [.deleteOne] }

/-- The handler of `DELETE /api/books/:id`. -/
def deleteBook (env : Env) (bookId : String) (w : World) : Result Response :=
  if !ObjectId.isValid bookId then
    { val := sendText "no book exists", world := w, effects := [] }
  else
    catchError "DELETE /api/books/:id error" (deleteBookTry env bookId w)

/-! ## Requests and runs -/

/-- The six requests of the API. -/
inductive Request where
  | listBooks
  | createBook (body : ReqBody)
  | deleteAll
  | getBook (id : String)
  | addComment (id : String) (body : ReqBody)
  | deleteBook (id : String)

/-- Route dispatch: the handler registered for the request. -/
def handle (env : Env) (req : Request) (w : World) : Result Response :=
  match req with
  | .listBooks => listBooks env w
  | .createBook body => createBook env body w
  | .deleteAll => deleteAll env w
  | .getBook id => getBook env id w
  | .addComment id body => addComment env id body w
  | .deleteBook id => deleteBook env id w

/-- The `try` block a request enters, `none` when the handler returns before it
(a validation failure). -/
def tryBlock (env : Env) (req : Request) (w : World) : Option (Result (Except Thrown Response)) :=
  match req with
  | .listBooks => some (listBooksTry env w)
  | .createBook body =>
    if !body.title.truthy then none else some (createBookTry env body.title w)
  | .deleteAll => some (deleteAllTry env w)
  | .getBook id => if !ObjectId.isValid id then none else some (getBookTry env id w)
  | .addComment id body =>
    if !ObjectId.isValid id then none
    else if !body.comment.truthy then none
    else some (addCommentTry env id body.comment w)
  | .deleteBook id => if !ObjectId.isValid id then none else some (deleteBookTry env id w)

/-- The world after a sequence of requests handled one after the other. -/
def run : List (Env × Request) → World → World
  | [], w => w
  | (env, req) :: rest, w => run rest (handle env req w).world

/-- The responses to a sequence of requests handled one after the other. -/
def responses : List (Env × Request) → World → List Response
  | [], _ => []
  | (env, req) :: rest, w => (handle env req w).val :: responses rest (handle env req w).world

/-- A sequence of `POST /api/books/:id` requests to one book, each with its
environment and body. -/
def commentRequests (id : String) (posts : List (Env × ReqBody)) : List (Env × Request) :=
  posts.map (fun p => (p.1, Request.addComment id p.2))

/-- A `try` block either throws a database failure or yields a 200 response. -/
def TryOutcome (t : Result (Except Thrown Response)) : Prop :=
  (∃ e, t.val = .error (.database e)) ∨ (∃ r, t.val = .ok r ∧ r.status = 200)

/-- The invariant of the catalog after the requests `hist`: every stored book has
a truthy title, a comments field that is a sequence, and was created by one of
the requests under its identifier and with its title; identifiers are unique. -/
def StoreInv (hist : List (Env × Request)) (books : List Doc) : Prop :=
  (∀ d ∈ books, d.title.truthy = true ∧ (∃ cs, d.comments = .array cs) ∧
    ∃ env body, (env, Request.createBook body) ∈ hist ∧ env.freshId = d._id ∧
      body.title = d.title) ∧
  (books.map (fun b => b._id)).Nodup

/-! ## Sample data -/

/-- The identifier `000000000000000000000000`. -/
def sampleId : ObjectId := ⟨List.replicate 24 '0', by decide⟩

/-- The identifier `00000000000000000000000a`. -/
def otherId : ObjectId := ⟨List.replicate 23 '0' ++ ['a'], by decide⟩

/-- An environment in which everything succeeds and the engine assigns `sampleId`. -/
def goodEnv : Env := { connectOk := true, opOk := true, freshId := sampleId }

/-- An environment in which the database cannot be reached. -/
def downEnv : Env := { connectOk := false, opOk := false, freshId := sampleId }

/-- A freshly loaded module with a connection string and an empty catalog. -/
def freshWorld : World := World.init (some "mongodb://localhost/test") []

/-- A freshly loaded module without a connection string, empty catalog. -/
def unconfiguredWorld : World := World.init none []

/-- A request body without any field. -/
def emptyBody : ReqBody := { title := .undefined, comment := .undefined }

/-- Three comment requests, "a", "b" and "c", each in an environment where the
database answers. -/
def threePosts : List (Env × ReqBody) :=
  [(goodEnv, ⟨.undefined, .string "a"⟩), (goodEnv, ⟨.undefined, .string "b"⟩),
    (goodEnv, ⟨.undefined, .string "c"⟩)]

/-- A create request for the title "T" followed by the comment "a" on the created
book. -/
def createAndComment : List (Env × Request) :=
  [(goodEnv, .createBook ⟨.string "T", .undefined⟩),
    (goodEnv, .addComment "000000000000000000000000" ⟨.undefined, .string "a"⟩)]

end Books

/-! # Theorems -/

namespace Books

/-! ## Identifiers -/

theorem isValid_iff (id : String) :
    ObjectId.isValid id = true ↔ id.data.length = 24 ∧ ∀ c ∈ id.data, isHexChar c = true := by
  simp [ObjectId.isValid, List.all_eq_true]

theorem isLowerHexChar_toLowerHex (c : Char) (h : isHexChar c = true) :
    isLowerHexChar (toLowerHex c) = true := by
  simp only [isHexChar, lowerHexChars, upperHexChars, decide_eq_true_eq,
    List.mem_cons, List.mem_singleton, List.mem_nil_iff, or_false] at h
  rcases h with (h | h | h | h | h | h | h | h | h | h | h | h | h | h | h | h) |
    (h | h | h | h | h | h) <;> subst h <;> decide

theorem toLowerHex_of_lower (c : Char) (h : isLowerHexChar c = true) : toLowerHex c = c := by
  simp only [isLowerHexChar, lowerHexChars, decide_eq_true_eq,
    List.mem_cons, List.mem_singleton, List.mem_nil_iff, or_false] at h
  rcases h with (h | h | h | h | h | h | h | h | h | h | h | h | h | h | h | h) <;> subst h <;> rfl

theorem isHexChar_of_lower (c : Char) (h : isLowerHexChar c = true) : isHexChar c = true := by
  simp only [isLowerHexChar, decide_eq_true_eq] at h
  simp [isHexChar, h]

theorem ofString_isSome (id : String) (h : ObjectId.isValid id = true) :
    ∃ oid, ObjectId.ofString id = some oid := by
  rw [isValid_iff] at h
  have hc : canonicalHex (id.data.map toLowerHex) = true := by
    simp only [canonicalHex, Bool.and_eq_true, beq_iff_eq, List.length_map, List.all_eq_true,
      List.mem_map, forall_exists_index, and_imp]
    refine ⟨h.1, ?_⟩
    intro c x hx hxc
    subst hxc
    exact isLowerHexChar_toLowerHex x (h.2 x hx)
  exact ⟨⟨_, hc⟩, by simp [ObjectId.ofString, hc]⟩

theorem ofString_toString (o : ObjectId) : ObjectId.ofString o.toString = some o := by
  obtain ⟨hex, wf⟩ := o
  have hall : ∀ c ∈ hex, isLowerHexChar c = true := by
    simp only [canonicalHex, Bool.and_eq_true, List.all_eq_true] at wf
    exact wf.2
  have hmap : hex.map toLowerHex = hex := by
    conv_rhs => rw [← List.map_id hex]
    exact List.map_congr_left (fun c hc => toLowerHex_of_lower c (hall c hc))
  simp [ObjectId.ofString, ObjectId.toString, hmap, wf]

theorem isValid_toString (o : ObjectId) : ObjectId.isValid o.toString = true := by
  obtain ⟨hex, wf⟩ := o
  simp only [canonicalHex, Bool.and_eq_true, beq_iff_eq, List.all_eq_true] at wf
  rw [isValid_iff]
  exact ⟨wf.1, fun c hc => isHexChar_of_lower c (wf.2 c hc)⟩

theorem toString_injective (a b : ObjectId) (h : a.toString = b.toString) : a = b := by
  obtain ⟨ha, wa⟩ := a
  obtain ⟨hb, wb⟩ := b
  have h2 : ha = hb := congrArg String.data h
  subst h2
  rfl

/-! ## Response shaping -/

/-- C9: `buildListItem` and `buildBook` give the identifier as a string and the
title of the document; the comments of the full view are the stored comments
when that field is an array and the empty sequence otherwise, and
`commentcount` is the length of that same sequence. -/
theorem buildListItem_buildBook_shape (doc : Doc) :
    (buildListItem doc)._id = doc._id.toString ∧
    (buildListItem doc).title = doc.title ∧
    (buildBook doc)._id = doc._id.toString ∧
    (buildBook doc).title = doc.title ∧
    (∀ xs, doc.comments = .array xs →
      (buildBook doc).comments = xs ∧ (buildListItem doc).commentcount = xs.length) ∧
    (doc.comments.isArray = false →
      (buildBook doc).comments = [] ∧ (buildListItem doc).commentcount = 0) ∧
    (buildListItem doc).commentcount = (buildBook doc).comments.length := by
  refine ⟨rfl, rfl, rfl, rfl, ?_, ?_, rfl⟩
  · intro xs h
    simp [buildBook, buildListItem, arrayOrEmpty, h]
  · intro h
    cases hc : doc.comments <;> simp_all [buildBook, buildListItem, arrayOrEmpty, JSValue.isArray]

/-- Witness of `buildListItem_buildBook_shape`: a document with two comments and
one without a comments field. -/
theorem buildListItem_buildBook_shape_witness :
    ((buildBook ⟨sampleId, .string "T", .array [.string "a", .string "b"]⟩).comments
        = [.string "a", .string "b"] ∧
      (buildListItem ⟨sampleId, .string "T", .array [.string "a", .string "b"]⟩).commentcount
        = 2) ∧
    ((buildBook ⟨sampleId, .string "T", .undefined⟩).comments = [] ∧
      (buildListItem ⟨sampleId, .string "T", .undefined⟩).commentcount = 0) :=
  ⟨(buildListItem_buildBook_shape
      ⟨sampleId, .string "T", .array [.string "a", .string "b"]⟩).2.2.2.2.1 _ rfl,
    (buildListItem_buildBook_shape ⟨sampleId, .string "T", .undefined⟩).2.2.2.2.2.1 rfl⟩

/-! ## Validation failures -/

/-- C1: for a path parameter that is not a 24-character hexadecimal string, each
of GET, POST and DELETE on `/api/books/:id` answers 200 with the text
"no book exists", whatever the request body, the world and the environment,
leaves the world as it is and performs no effect at all (no connection attempt,
no database operation). -/
theorem invalid_id_no_book_exists (id : String)
    (h : ¬ (id.data.length = 24 ∧ ∀ c ∈ id.data, c ∈ lowerHexChars ∨ c ∈ upperHexChars))
    (env : Env) (body : ReqBody) (w : World) :
    getBook env id w =
      { val := { status := 200, body := .text "no book exists" }, world := w, effects := [] } ∧
    addComment env id body w =
      { val := { status := 200, body := .text "no book exists" }, world := w, effects := [] } ∧
    deleteBook env id w =
      { val := { status := 200, body := .text "no book exists" }, world := w, effects := [] } := by
  have hv : ObjectId.isValid id = false := by
    rw [Bool.eq_false_iff]
    intro hv
    rw [isValid_iff] at hv
    exact h ⟨hv.1, fun c hc => by simpa [isHexChar] using hv.2 c hc⟩
  simp [getBook, addComment, deleteBook, hv, sendText]

/-- Witness of `invalid_id_no_book_exists` at the spec's `not-a-valid-id`, with the
database unreachable. -/
theorem invalid_id_no_book_exists_witness :
    ¬ ("not-a-valid-id".data.length = 24 ∧
        ∀ c ∈ "not-a-valid-id".data, c ∈ lowerHexChars ∨ c ∈ upperHexChars) ∧
    getBook downEnv "not-a-valid-id" unconfiguredWorld =
      { val := { status := 200, body := .text "no book exists" },
        world := unconfiguredWorld, effects := [] } ∧
    addComment downEnv "not-a-valid-id" emptyBody unconfiguredWorld =
      { val := { status := 200, body := .text "no book exists" },
        world := unconfiguredWorld, effects := [] } ∧
    deleteBook downEnv "not-a-valid-id" unconfiguredWorld =
      { val := { status := 200, body := .text "no book exists" },
        world := unconfiguredWorld, effects := [] } :=
  ⟨by decide,
    invalid_id_no_book_exists "not-a-valid-id" (by decide) downEnv emptyBody unconfiguredWorld⟩

/-! ## The `catch` clause -/

theorem catchError_ok (label : String) (t : Result (Except Thrown Response)) (r : Response)
    (h : t.val = .ok r) :
    catchError label t = { val := r, world := t.world, effects := t.effects } := by
  simp [catchError, h]

theorem catchError_error (label : String) (t : Result (Except Thrown Response)) (e : Thrown)
    (h : t.val = .error e) :
    catchError label t =
      { val := internalServerError, world := t.world,
        effects := t.effects ++ [.consoleError label] } := by
  simp [catchError, h]

theorem createBookTry_val (env : Env) (title : JSValue) (w : World) :
    (∃ e, (createBookTry env title w).val = .error e) ∨
    (createBookTry env title w).val = .ok (sendJson (.jsonCreated env.freshId.toString title)) := by
  cases hc : (getBooksCollection env w).val with
  | error e => simp [createBookTry, hc]
  | ok u =>
    by_cases hop : env.opOk = true
    · cases hi : Collection.insertOne
          { _id := env.freshId, title := title, comments := .array [] }
          (getBooksCollection env w).world.books <;> simp [createBookTry, hc, hop, hi]
    · simp [createBookTry, hc, hop]

/-- C3: `POST /api/books` with a falsy title (absent, empty, `null`, `false`, `0`,
`NaN`) answers 200 with the text "missing required field title", leaves the
world as it is (so the list of books is the same afterwards) and performs no
effect; with a truthy title the response never carries that text. -/
theorem createBook_missing_title (env : Env) (body : ReqBody) (w : World) :
    (body.title.truthy = false →
      createBook env body w =
        { val := { status := 200, body := .text "missing required field title" },
          world := w, effects := [] } ∧
      ∀ env2, (listBooks env2 (createBook env body w).world).val = (listBooks env2 w).val) ∧
    (body.title.truthy = true →
      (createBook env body w).val.body ≠ .text "missing required field title") := by
  constructor
  · intro h
    have hc : createBook env body w =
        { val := { status := 200, body := .text "missing required field title" },
          world := w, effects := [] } := by
      simp [createBook, h, sendText]
    exact ⟨hc, fun env2 => by rw [hc]⟩
  · intro h
    have hc : createBook env body w =
        catchError "POST /api/books error" (createBookTry env body.title w) := by
      simp [createBook, h]
    rw [hc]
    rcases createBookTry_val env body.title w with ⟨e, he⟩ | hok
    · rw [catchError_error _ _ e he]
      simp only [internalServerError, ne_eq, Payload.text.injEq]
      decide
    · rw [catchError_ok _ _ _ hok]
      simp [sendJson]

/-- Witness of `createBook_missing_title`: an absent title and an empty title are
rejected, the title "T" is not. -/
theorem createBook_missing_title_witness :
    (createBook goodEnv emptyBody freshWorld =
        { val := { status := 200, body := .text "missing required field title" },
          world := freshWorld, effects := [] } ∧
      ∀ env2, (listBooks env2 (createBook goodEnv emptyBody freshWorld).world).val
        = (listBooks env2 freshWorld).val) ∧
    (createBook goodEnv ⟨.string "", .undefined⟩ freshWorld).val =
        { status := 200, body := .text "missing required field title" } ∧
    (createBook goodEnv ⟨.string "T", .undefined⟩ freshWorld).val.body
      ≠ .text "missing required field title" :=
  ⟨(createBook_missing_title goodEnv emptyBody freshWorld).1 rfl,
    congrArg Result.val
      ((createBook_missing_title goodEnv ⟨.string "", .undefined⟩ freshWorld).1 rfl).1,
    (createBook_missing_title goodEnv ⟨.string "T", .undefined⟩ freshWorld).2 rfl⟩

/-- C4: `POST /api/books/:id` checks the identifier first: an invalid `id` is
answered "no book exists" whatever the comment is; with a valid `id`, a falsy
comment is answered 200 with the text "missing required field comment". In both
cases the world, hence every stored book and its comments, is left as it is and
no effect is performed. -/
theorem addComment_validation_order (env : Env) (id : String) (body : ReqBody) (w : World) :
    (ObjectId.isValid id = false →
      addComment env id body w =
        { val := { status := 200, body := .text "no book exists" }, world := w, effects := [] }) ∧
    (ObjectId.isValid id = true → body.comment.truthy = false →
      addComment env id body w =
        { val := { status := 200, body := .text "missing required field comment" },
          world := w, effects := [] } ∧
      (addComment env id body w).world.books = w.books) := by
  constructor
  · intro h
    simp [addComment, h, sendText]
  · intro h hc
    have hr : addComment env id body w =
        { val := { status := 200, body := .text "missing required field comment" },
          world := w, effects := [] } := by
      simp [addComment, h, hc, sendText]
    exact ⟨hr, by rw [hr]⟩

/-- Witness of `addComment_validation_order`: an invalid identifier with a missing
comment, and the identifier of a stored book with a missing comment. -/
theorem addComment_validation_order_witness :
    addComment goodEnv "not-a-valid-id" emptyBody freshWorld =
      { val := { status := 200, body := .text "no book exists" },
        world := freshWorld, effects := [] } ∧
    (addComment goodEnv "000000000000000000000000" emptyBody
        (World.init (some "mongodb://localhost/test")
          [⟨sampleId, .string "T", .array [.string "a"]⟩]) =
      { val := { status := 200, body := .text "missing required field comment" },
        world := World.init (some "mongodb://localhost/test")
          [⟨sampleId, .string "T", .array [.string "a"]⟩], effects := [] } ∧
    (addComment goodEnv "000000000000000000000000" emptyBody
        (World.init (some "mongodb://localhost/test")
          [⟨sampleId, .string "T", .array [.string "a"]⟩])).world.books =
      [⟨sampleId, .string "T", .array [.string "a"]⟩]) :=
  ⟨(addComment_validation_order goodEnv "not-a-valid-id" emptyBody freshWorld).1 (by decide),
    (addComment_validation_order goodEnv "000000000000000000000000" emptyBody
      (World.init (some "mongodb://localhost/test")
        [⟨sampleId, .string "T", .array [.string "a"]⟩])).2 (by decide) rfl⟩

/-! ## The connection accessor -/

theorem getBooksCollection_cached (env : Env) (w : World) (p : Except DbError Unit)
    (h : w.booksCollectionPromise = some p) :
    getBooksCollection env w = { val := p, world := w, effects := [] } := by
  simp [getBooksCollection, h]

theorem getBooksCollection_unconfigured (env : Env) (w : World)
    (h : w.booksCollectionPromise = none) (hu : uriFalsy w.MONGO_URI = true) :
    getBooksCollection env w = { val := .error .configMissing, world := w, effects := [] } := by
  simp [getBooksCollection, h, hu]

theorem getBooksCollection_connect_ok (env : Env) (w : World)
    (h : w.booksCollectionPromise = none) (hu : uriFalsy w.MONGO_URI = false)
    (hc : env.connectOk = true) :
    getBooksCollection env w =
      { val := .ok (), world := { w with booksCollectionPromise := some (.ok ()) },
        effects := [.connect] } := by
  simp [getBooksCollection, h, hu, hc]

theorem getBooksCollection_connect_failed (env : Env) (w : World)
    (h : w.booksCollectionPromise = none) (hu : uriFalsy w.MONGO_URI = false)
    (hc : env.connectOk = false) :
    getBooksCollection env w =
      { val := .error .connectFailed,
        world := { w with booksCollectionPromise := some (.error .connectFailed) },
        effects := [.connect, .consoleError "Failed to connect to database"] } := by
  simp [getBooksCollection, h, hu, hc]

/-- The accessor never touches the catalog nor the configuration value. -/
theorem getBooksCollection_books (env : Env) (w : World) :
    (getBooksCollection env w).world.books = w.books ∧
    (getBooksCollection env w).world.MONGO_URI = w.MONGO_URI := by
  unfold getBooksCollection
  repeat' split
  all_goals exact ⟨rfl, rfl⟩

/-- After a successful call the resolved promise is the one stored. -/
theorem getBooksCollection_ok_cached (env : Env) (w : World)
    (h : (getBooksCollection env w).val = .ok ()) :
    (getBooksCollection env w).world.booksCollectionPromise = some (.ok ()) := by
  unfold getBooksCollection at h ⊢
  split at h
  · next p hp => simp_all
  · split at h
    · simp at h
    · split at h
      · simp_all
      · simp at h

/-- C2, as the code has it: with the connection string set and nothing stored
yet, a failing connection attempt is propagated to its caller, and the rejected
promise is what `booksCollectionPromise` keeps: every later call returns that
same failure, whatever the environment would answer, without any new connection
attempt and without changing the world. -/
theorem getBooksCollection_failure_is_kept (env1 : Env) (w : World)
    (hnone : w.booksCollectionPromise = none) (huri : uriFalsy w.MONGO_URI = false)
    (hfail : env1.connectOk = false) :
    (getBooksCollection env1 w).val = .error .connectFailed ∧
    Effect.connect ∈ (getBooksCollection env1 w).effects ∧
    (getBooksCollection env1 w).world.booksCollectionPromise = some (.error .connectFailed) ∧
    ∀ env2 : Env,
      getBooksCollection env2 (getBooksCollection env1 w).world =
        { val := .error .connectFailed, world := (getBooksCollection env1 w).world,
          effects := [] } := by
  rw [getBooksCollection_connect_failed env1 w hnone huri hfail]
  refine ⟨rfl, by simp, rfl, fun env2 => ?_⟩
  exact getBooksCollection_cached env2 _ _ rfl

/-- Witness of `getBooksCollection_failure_is_kept`: a freshly loaded, configured
module whose first connection attempt fails. -/
theorem getBooksCollection_failure_is_kept_witness :
    (getBooksCollection downEnv freshWorld).val = .error .connectFailed ∧
    Effect.connect ∈ (getBooksCollection downEnv freshWorld).effects ∧
    (getBooksCollection downEnv freshWorld).world.booksCollectionPromise
      = some (.error .connectFailed) ∧
    ∀ env2 : Env,
      getBooksCollection env2 (getBooksCollection downEnv freshWorld).world =
        { val := .error .connectFailed, world := (getBooksCollection downEnv freshWorld).world,
          effects := [] } :=
  getBooksCollection_failure_is_kept downEnv freshWorld rfl rfl rfl

/-- C2 as stated fails: after a failed first attempt, a second call in an
environment where connecting would succeed makes no connection attempt and
yields the earlier failure, not the collection handle. -/
theorem getBooksCollection_retry_counterexample :
    (getBooksCollection downEnv freshWorld).val = .error .connectFailed ∧
    goodEnv.connectOk = true ∧
    (getBooksCollection goodEnv (getBooksCollection downEnv freshWorld).world).val
      = .error .connectFailed ∧
    (getBooksCollection goodEnv (getBooksCollection downEnv freshWorld).world).effects = [] ∧
    ¬ ((getBooksCollection goodEnv (getBooksCollection downEnv freshWorld).world).val = .ok () ∧
        Effect.connect ∈
          (getBooksCollection goodEnv (getBooksCollection downEnv freshWorld).world).effects) := by
  refine ⟨rfl, rfl, rfl, rfl, ?_⟩
  rintro ⟨h, -⟩
  exact absurd h (by simp [getBooksCollection, downEnv, goodEnv, freshWorld, World.init, uriFalsy])

/-! ## Outcomes of the `try` blocks -/

theorem listBooksTry_outcome (env : Env) (w : World) : TryOutcome (listBooksTry env w) := by
  unfold TryOutcome
  cases hc : (getBooksCollection env w).val with
  | error e => simp [listBooksTry, hc]
  | ok u =>
    by_cases hop : env.opOk = true
    · simp [listBooksTry, hc, hop, sendJson]
    · simp [listBooksTry, hc, hop]

theorem createBookTry_outcome (env : Env) (title : JSValue) (w : World) :
    TryOutcome (createBookTry env title w) := by
  unfold TryOutcome
  cases hc : (getBooksCollection env w).val with
  | error e => simp [createBookTry, hc]
  | ok u =>
    by_cases hop : env.opOk = true
    · cases hi : Collection.insertOne
          { _id := env.freshId, title := title, comments := .array [] }
          (getBooksCollection env w).world.books <;> simp [createBookTry, hc, hop, hi, sendJson]
    · simp [createBookTry, hc, hop]

theorem deleteAllTry_outcome (env : Env) (w : World) : TryOutcome (deleteAllTry env w) := by
  unfold TryOutcome
  cases hc : (getBooksCollection env w).val with
  | error e => simp [deleteAllTry, hc]
  | ok u =>
    by_cases hop : env.opOk = true
    · simp [deleteAllTry, hc, hop, sendText]
    · simp [deleteAllTry, hc, hop]

theorem getBookTry_outcome (env : Env) (id : String) (w : World)
    (hv : ObjectId.isValid id = true) : TryOutcome (getBookTry env id w) := by
  unfold TryOutcome
  obtain ⟨oid, ho⟩ := ofString_isSome id hv
  cases hc : (getBooksCollection env w).val with
  | error e => simp [getBookTry, hc]
  | ok u =>
    by_cases hop : env.opOk = true
    · cases hf : Collection.findOne oid (getBooksCollection env w).world.books <;>
        simp [getBookTry, hc, ho, hop, hf, sendJson, sendText]
    · simp [getBookTry, hc, ho, hop]

theorem addCommentTry_outcome (env : Env) (id : String) (comment : JSValue) (w : World)
    (hv : ObjectId.isValid id = true) : TryOutcome (addCommentTry env id comment w) := by
  unfold TryOutcome
  obtain ⟨oid, ho⟩ := ofString_isSome id hv
  cases hc : (getBooksCollection env w).val with
  | error e => simp [addCommentTry, hc]
  | ok u =>
    by_cases hop : env.opOk = true
    · rcases hf : Collection.findOneAndUpdate oid comment (getBooksCollection env w).world.books
        with e | ⟨_ | v, b⟩ <;>
        simp [addCommentTry, hc, ho, hop, hf, sendJson, sendText]
    · simp [addCommentTry, hc, ho, hop]

theorem deleteBookTry_outcome (env : Env) (id : String) (w : World)
    (hv : ObjectId.isValid id = true) : TryOutcome (deleteBookTry env id w) := by
  unfold TryOutcome
  obtain ⟨oid, ho⟩ := ofString_isSome id hv
  cases hc : (getBooksCollection env w).val with
  | error e => simp [deleteBookTry, hc]
  | ok u =>
    by_cases hop : env.opOk = true
    · by_cases hd : (Collection.deleteOne oid (getBooksCollection env w).world.books).1 = 0 <;>
        simp [deleteBookTry, hc, ho, hop, hd, sendText]
    · simp [deleteBookTry, hc, ho, hop]

theorem tryBlock_outcome (env : Env) (req : Request) (w : World)
    (t : Result (Except Thrown Response)) (h : tryBlock env req w = some t) : TryOutcome t := by
  cases req with
  | listBooks =>
    simp only [tryBlock, Option.some.injEq] at h
    exact h ▸ listBooksTry_outcome env w
  | createBook body =>
    by_cases ht : body.title.truthy = true
    · simp only [tryBlock, ht, Bool.not_true, Bool.false_eq_true, if_false,
        Option.some.injEq] at h
      exact h ▸ createBookTry_outcome env body.title w
    · simp [tryBlock, ht] at h
  | deleteAll =>
    simp only [tryBlock, Option.some.injEq] at h
    exact h ▸ deleteAllTry_outcome env w
  | getBook id =>
    by_cases hv : ObjectId.isValid id = true
    · simp only [tryBlock, hv, Bool.not_true, Bool.false_eq_true, if_false,
        Option.some.injEq] at h
      exact h ▸ getBookTry_outcome env id w hv
    · simp [tryBlock, hv] at h
  | addComment id body =>
    by_cases hv : ObjectId.isValid id = true
    · by_cases hc : body.comment.truthy = true
      · simp only [tryBlock, hv, hc, Bool.not_true, Bool.false_eq_true, if_false,
          Option.some.injEq] at h
        exact h ▸ addCommentTry_outcome env id body.comment w hv
      · simp [tryBlock, hv, hc] at h
    · simp [tryBlock, hv] at h
  | deleteBook id =>
    by_cases hv : ObjectId.isValid id = true
    · simp only [tryBlock, hv, Bool.not_true, Bool.false_eq_true, if_false,
        Option.some.injEq] at h
      exact h ▸ deleteBookTry_outcome env id w hv
    · simp [tryBlock, hv] at h

/-- A handler is its validation followed by the `catch` clause around its `try`
block. -/
theorem handle_eq_catch (env : Env) (req : Request) (w : World) :
    (tryBlock env req w = none ∧ (handle env req w).val.status = 200 ∧
      (handle env req w).world = w ∧ (handle env req w).effects = []) ∨
    (∃ t label, tryBlock env req w = some t ∧ handle env req w = catchError label t) := by
  cases req with
  | listBooks => exact Or.inr ⟨_, _, rfl, rfl⟩
  | createBook body =>
    by_cases ht : body.title.truthy = true
    · exact Or.inr ⟨createBookTry env body.title w, "POST /api/books error",
        by simp [tryBlock, ht], by simp [handle, createBook, ht]⟩
    · exact Or.inl (by simp [tryBlock, handle, createBook, ht, sendText])
  | deleteAll => exact Or.inr ⟨_, _, rfl, rfl⟩
  | getBook id =>
    by_cases hv : ObjectId.isValid id = true
    · exact Or.inr ⟨getBookTry env id w, "GET /api/books/:id error",
        by simp [tryBlock, hv], by simp [handle, getBook, hv]⟩
    · exact Or.inl (by simp [tryBlock, handle, getBook, hv, sendText])
  | addComment id body =>
    by_cases hv : ObjectId.isValid id = true
    · by_cases hc : body.comment.truthy = true
      · exact Or.inr ⟨addCommentTry env id body.comment w, "POST /api/books/:id error",
          by simp [tryBlock, hv, hc], by simp [handle, addComment, hv, hc]⟩
      · exact Or.inl (by simp [tryBlock, handle, addComment, hv, hc, sendText])
    · exact Or.inl (by simp [tryBlock, handle, addComment, hv, sendText])
  | deleteBook id =>
    by_cases hv : ObjectId.isValid id = true
    · exact Or.inr ⟨deleteBookTry env id w, "DELETE /api/books/:id error",
        by simp [tryBlock, hv], by simp [handle, deleteBook, hv]⟩
    · exact Or.inl (by simp [tryBlock, handle, deleteBook, hv, sendText])

/-- Status 500 is the `catch` clause's and nothing else's. -/
theorem handle_status (env : Env) (req : Request) (w : World) :
    ((handle env req w).val.status = 500 ↔
      ∃ t e, tryBlock env req w = some t ∧ t.val = .error (.database e)) ∧
    ((handle env req w).val.status = 200 ∨ (handle env req w).val = internalServerError) := by
  rcases handle_eq_catch env req w with ⟨hn, hs, -, -⟩ | ⟨t, label, ht, hh⟩
  · refine ⟨⟨fun h => ?_, fun ⟨t, e, h, _⟩ => ?_⟩, Or.inl hs⟩
    · omega
    · rw [hn] at h
      exact absurd h (by simp)
  · rcases tryBlock_outcome env req w t ht with ⟨e, he⟩ | ⟨r, hr, h200⟩
    · rw [hh, catchError_error _ _ _ he]
      exact ⟨⟨fun _ => ⟨t, e, ht, he⟩, fun _ => rfl⟩, Or.inr rfl⟩
    · rw [hh, catchError_ok _ _ _ hr]
      refine ⟨⟨fun h => ?_, fun ⟨t2, e, h2, he⟩ => ?_⟩, Or.inl h200⟩
      · simp only at h
        omega
      · rw [ht] at h2
        cases h2
        rw [hr] at he
        cases he

/-! ## Without a connection string -/

theorem handle_unconfigured (env : Env) (req : Request) (w : World)
    (hnone : w.booksCollectionPromise = none) (hu : uriFalsy w.MONGO_URI = true) :
    (handle env req w).world = w := by
  have hg := getBooksCollection_unconfigured env w hnone hu
  cases req with
  | listBooks => simp [handle, listBooks, listBooksTry, catchError, hg]
  | createBook body =>
    by_cases ht : body.title.truthy = true <;>
      simp [handle, createBook, createBookTry, catchError, hg, ht]
  | deleteAll => simp [handle, deleteAll, deleteAllTry, catchError, hg]
  | getBook id =>
    by_cases hv : ObjectId.isValid id = true <;>
      simp [handle, getBook, getBookTry, catchError, hg, hv]
  | addComment id body =>
    by_cases hv : ObjectId.isValid id = true <;> by_cases hc : body.comment.truthy = true <;>
      simp [handle, addComment, addCommentTry, catchError, hg, hv, hc]
  | deleteBook id =>
    by_cases hv : ObjectId.isValid id = true <;>
      simp [handle, deleteBook, deleteBookTry, catchError, hg, hv]

theorem run_unconfigured (reqs : List (Env × Request)) (w : World)
    (hnone : w.booksCollectionPromise = none) (hu : uriFalsy w.MONGO_URI = true) :
    run reqs w = w := by
  induction reqs with
  | nil => rfl
  | cons x rest ih =>
    obtain ⟨env, req⟩ := x
    simp only [run]
    rw [handle_unconfigured env req w hnone hu]
    exact ih

/-- C8: when the connection string is unset, in every world the module can be in
(any sequence of requests after loading, any catalog), nothing is cached, every
request that passes validation is answered 500 "internal server error" with the
world unchanged and one log line as its only effect (no connection attempt, no
database operation), and the validation failures keep their 200 text answers.
In every handler, whatever the world, the status is 500 exactly when the `try`
block threw a database failure, and it is 200 otherwise. -/
theorem unconfigured_answers_500 (uri : Option String) (hu : uriFalsy uri = true)
    (books0 : List Doc) (reqs : List (Env × Request)) (env : Env) (w : World)
    (hw : w = run reqs (World.init uri books0)) :
    w.booksCollectionPromise = none ∧
    listBooks env w =
      { val := { status := 500, body := .text "internal server error" }, world := w,
        effects := [.consoleError "GET /api/books error"] } ∧
    deleteAll env w =
      { val := { status := 500, body := .text "internal server error" }, world := w,
        effects := [.consoleError "DELETE /api/books error"] } ∧
    (∀ body : ReqBody, body.title.truthy = true →
      createBook env body w =
        { val := { status := 500, body := .text "internal server error" }, world := w,
          effects := [.consoleError "POST /api/books error"] }) ∧
    (∀ id : String, ObjectId.isValid id = true →
      getBook env id w =
        { val := { status := 500, body := .text "internal server error" }, world := w,
          effects := [.consoleError "GET /api/books/:id error"] }) ∧
    (∀ (id : String) (body : ReqBody), ObjectId.isValid id = true →
      body.comment.truthy = true →
      addComment env id body w =
        { val := { status := 500, body := .text "internal server error" }, world := w,
          effects := [.consoleError "POST /api/books/:id error"] }) ∧
    (∀ id : String, ObjectId.isValid id = true →
      deleteBook env id w =
        { val := { status := 500, body := .text "internal server error" }, world := w,
          effects := [.consoleError "DELETE /api/books/:id error"] }) ∧
    (∀ body : ReqBody, body.title.truthy = false →
      createBook env body w =
        { val := { status := 200, body := .text "missing required field title" }, world := w,
          effects := [] }) ∧
    (∀ (id : String) (body : ReqBody), ObjectId.isValid id = false →
      getBook env id w =
        { val := { status := 200, body := .text "no book exists" }, world := w,
          effects := [] } ∧
      addComment env id body w =
        { val := { status := 200, body := .text "no book exists" }, world := w,
          effects := [] } ∧
      deleteBook env id w =
        { val := { status := 200, body := .text "no book exists" }, world := w,
          effects := [] }) ∧
    (∀ (id : String) (body : ReqBody), ObjectId.isValid id = true →
      body.comment.truthy = false →
      addComment env id body w =
        { val := { status := 200, body := .text "missing required field comment" },
          world := w, effects := [] }) ∧
    (∀ (env2 : Env) (req : Request) (w2 : World),
      ((handle env2 req w2).val.status = 500 ↔
        ∃ t e, tryBlock env2 req w2 = some t ∧ t.val = .error (.database e)) ∧
      ((handle env2 req w2).val.status = 200 ∨
        (handle env2 req w2).val = { status := 500, body := .text "internal server error" })) := by
  have hw2 : w = World.init uri books0 := by
    rw [hw]
    exact run_unconfigured reqs _ rfl hu
  have hnone : w.booksCollectionPromise = none := by rw [hw2]; rfl
  have hu2 : uriFalsy w.MONGO_URI = true := by rw [hw2]; exact hu
  have hg := getBooksCollection_unconfigured env w hnone hu2
  refine ⟨hnone, ?_, ?_, ?_, ?_, ?_, ?_, ?_, ?_, ?_, ?_⟩
  · simp [listBooks, listBooksTry, catchError, hg, internalServerError]
  · simp [deleteAll, deleteAllTry, catchError, hg, internalServerError]
  · intro body ht
    simp [createBook, createBookTry, catchError, hg, ht, internalServerError]
  · intro id hv
    simp [getBook, getBookTry, catchError, hg, hv, internalServerError]
  · intro id body hv hc
    simp [addComment, addCommentTry, catchError, hg, hv, hc, internalServerError]
  · intro id hv
    simp [deleteBook, deleteBookTry, catchError, hg, hv, internalServerError]
  · intro body ht
    simp [createBook, ht, sendText]
  · intro id body hv
    simp [getBook, addComment, deleteBook, hv, sendText]
  · intro id body hv hc
    simp [addComment, hv, hc, sendText]
  · intro env2 req w2
    exact handle_status env2 req w2

/-- Witness of `unconfigured_answers_500`: the module loaded without `DB`, after a
list request and a create request. -/
theorem unconfigured_answers_500_witness :
    uriFalsy none = true ∧
    listBooks goodEnv unconfiguredWorld =
      { val := { status := 500, body := .text "internal server error" },
        world := unconfiguredWorld, effects := [.consoleError "GET /api/books error"] } ∧
    createBook goodEnv ⟨.string "T", .undefined⟩ unconfiguredWorld =
      { val := { status := 500, body := .text "internal server error" },
        world := unconfiguredWorld, effects := [.consoleError "POST /api/books error"] } ∧
    getBook goodEnv "000000000000000000000000" unconfiguredWorld =
      { val := { status := 500, body := .text "internal server error" },
        world := unconfiguredWorld, effects := [.consoleError "GET /api/books/:id error"] } ∧
    createBook goodEnv emptyBody unconfiguredWorld =
      { val := { status := 200, body := .text "missing required field title" },
        world := unconfiguredWorld, effects := [] } :=
  have h := unconfigured_answers_500 none rfl []
    [(goodEnv, .listBooks), (goodEnv, .createBook ⟨.string "T", .undefined⟩)] goodEnv
    unconfiguredWorld rfl
  ⟨rfl, h.2.1, h.2.2.2.1 ⟨.string "T", .undefined⟩ rfl,
    h.2.2.2.2.1 "000000000000000000000000" (by decide), h.2.2.2.2.2.2.2.1 emptyBody rfl⟩

/-! ## Handlers when the database answers -/

theorem deleteBook_result (env : Env) (id : String) (oid : ObjectId) (w : World)
    (hv : ObjectId.isValid id = true) (hid : ObjectId.ofString id = some oid)
    (hconn : (getBooksCollection env w).val = .ok ()) (hop : env.opOk = true) :
    deleteBook env id w =
      { val := sendText (if w.books.any (fun b => b._id == oid) then "delete successful"
          else "no book exists"),
        world := { (getBooksCollection env w).world with
          books := w.books.eraseP (fun b => b._id == oid) },
        effects := (getBooksCollection env w).effects ++ [.deleteOne] } := by
  have hb := (getBooksCollection_books env w).1
  by_cases ha : w.books.any (fun b => b._id == oid) = true <;>
    simp [deleteBook, deleteBookTry, catchError, hv, hid, hconn, hop, Collection.deleteOne,
      hb, ha]

theorem getBook_result (env : Env) (id : String) (oid : ObjectId) (w : World)
    (hv : ObjectId.isValid id = true) (hid : ObjectId.ofString id = some oid)
    (hconn : (getBooksCollection env w).val = .ok ()) (hop : env.opOk = true) :
    getBook env id w =
      { val := (match Collection.findOne oid w.books with
          | none => sendText "no book exists"
          | some book => sendJson (.jsonBook (buildBook book))),
        world := (getBooksCollection env w).world,
        effects := (getBooksCollection env w).effects ++ [.findOne] } := by
  have hb := (getBooksCollection_books env w).1
  cases hf : Collection.findOne oid w.books <;>
    simp [getBook, getBookTry, catchError, hv, hid, hconn, hop, hb, hf]

theorem createBook_result (env : Env) (body : ReqBody) (w : World)
    (ht : body.title.truthy = true)
    (hconn : (getBooksCollection env w).val = .ok ()) (hop : env.opOk = true)
    (hfresh : ∀ d ∈ w.books, d._id ≠ env.freshId) :
    createBook env body w =
      { val := sendJson (.jsonCreated env.freshId.toString body.title),
        world := { (getBooksCollection env w).world with
          books := w.books ++ [⟨env.freshId, body.title, .array []⟩] },
        effects := (getBooksCollection env w).effects ++ [.insertOne] } := by
  have hb := (getBooksCollection_books env w).1
  have hany : w.books.any (fun b => b._id == env.freshId) = false := by
    rw [Bool.eq_false_iff]
    intro h
    rw [List.any_eq_true] at h
    obtain ⟨x, hx, hxe⟩ := h
    exact hfresh x hx (by simpa using hxe)
  simp [createBook, createBookTry, catchError, ht, hconn, hop, hb, Collection.insertOne, hany]

theorem listBooks_result (env : Env) (w : World)
    (hconn : (getBooksCollection env w).val = .ok ()) (hop : env.opOk = true) :
    listBooks env w =
      { val := sendJson (.jsonList (w.books.map buildListItem)),
        world := (getBooksCollection env w).world,
        effects := (getBooksCollection env w).effects ++ [.find] } := by
  have hb := (getBooksCollection_books env w).1
  simp [listBooks, listBooksTry, catchError, hconn, hop, hb, Collection.find]

/-- Once the resolved promise is stored, the accessor succeeds in every
environment and leaves the world as it is. -/
theorem getBooksCollection_resolved (env : Env) (w : World)
    (h : w.booksCollectionPromise = some (.ok ())) :
    getBooksCollection env w = { val := .ok (), world := w, effects := [] } :=
  getBooksCollection_cached env w _ h

/-- C7: `DELETE /api/books/:id` with a valid `id`, the database answering. If a
book with that identifier is stored, the response is "delete successful" and
the catalog loses exactly the first such book, every other book staying where
it is; if none is stored, the response is "no book exists" and the catalog is
unchanged. With identifiers unique in the catalog, a second delete of the same
identifier right after a successful one answers "no book exists". -/
theorem deleteBook_by_id (env : Env) (id : String) (oid : ObjectId) (w : World)
    (hv : ObjectId.isValid id = true) (hid : ObjectId.ofString id = some oid)
    (hconn : (getBooksCollection env w).val = .ok ()) (hop : env.opOk = true) :
    ((∃ d ∈ w.books, d._id = oid) →
      (deleteBook env id w).val = { status := 200, body := .text "delete successful" } ∧
      (∃ pre d post, w.books = pre ++ d :: post ∧ d._id = oid ∧ (∀ b ∈ pre, b._id ≠ oid) ∧
        (deleteBook env id w).world.books = pre ++ post) ∧
      ((w.books.map (fun b => b._id)).Nodup →
        (∀ b ∈ (deleteBook env id w).world.books, b._id ≠ oid) ∧
        ∀ env2 : Env, env2.opOk = true →
          (deleteBook env2 id (deleteBook env id w).world).val =
            { status := 200, body := .text "no book exists" } ∧
          (deleteBook env2 id (deleteBook env id w).world).world.books =
            (deleteBook env id w).world.books)) ∧
    ((∀ d ∈ w.books, d._id ≠ oid) →
      (deleteBook env id w).val = { status := 200, body := .text "no book exists" } ∧
      (deleteBook env id w).world.books = w.books) := by
  have hres := deleteBook_result env id oid w hv hid hconn hop
  have hnone : ∀ (env3 : Env) (w3 : World), (getBooksCollection env3 w3).val = .ok () →
      env3.opOk = true → (∀ d ∈ w3.books, d._id ≠ oid) →
      (deleteBook env3 id w3).val = { status := 200, body := .text "no book exists" } ∧
      (deleteBook env3 id w3).world.books = w3.books := by
    intro env3 w3 hc3 ho3 hno
    have hany : w3.books.any (fun b => b._id == oid) = false := by
      rw [Bool.eq_false_iff]
      intro h
      rw [List.any_eq_true] at h
      obtain ⟨x, hx, hxe⟩ := h
      exact hno x hx (by simpa using hxe)
    rw [deleteBook_result env3 id oid w3 hv hid hc3 ho3]
    refine ⟨by simp [hany, sendText], ?_⟩
    exact List.eraseP_of_forall_not (fun a ha => by simpa using hno a ha)
  constructor
  · rintro ⟨d, hd, hdo⟩
    have hany : w.books.any (fun b => b._id == oid) = true := by
      rw [List.any_eq_true]
      exact ⟨d, hd, by simpa using hdo⟩
    obtain ⟨a, pre, post, hpre, hpa, hsplit, herase⟩ :=
      List.exists_of_eraseP (p := fun b : Doc => b._id == oid) hd (by simpa using hdo)
    have hao : a._id = oid := by simpa using hpa
    have hbooks : (deleteBook env id w).world.books = pre ++ post := by
      rw [hres]
      exact herase
    refine ⟨by rw [hres]; simp [hany, sendText], ⟨pre, a, post, hsplit, hao,
      fun b hb => by simpa using hpre b hb, hbooks⟩, ?_⟩
    intro hnd
    have hgone : ∀ b ∈ (deleteBook env id w).world.books, b._id ≠ oid := by
      intro b hb
      rw [hbooks, List.mem_append] at hb
      rcases hb with hb | hb
      · simpa using hpre b hb
      · intro hbo
        rw [hsplit, List.map_append, List.map_cons] at hnd
        have h2 := (List.nodup_append.1 hnd).2.1
        rw [List.nodup_cons] at h2
        exact h2.1 (List.mem_map.2 ⟨b, hb, by rw [hbo, hao]⟩)
    refine ⟨hgone, fun env2 hop2 => ?_⟩
    have hcache : (deleteBook env id w).world.booksCollectionPromise = some (.ok ()) := by
      rw [hres]
      exact getBooksCollection_ok_cached env w hconn
    have hc2 : (getBooksCollection env2 (deleteBook env id w).world).val = .ok () := by
      rw [getBooksCollection_resolved env2 _ hcache]
    exact hnone env2 _ hc2 hop2 hgone
  · exact hnone env w hconn hop

/-- Witness of `deleteBook_by_id`: a catalog of two books, the first deleted twice. -/
theorem deleteBook_by_id_witness :
    (deleteBook goodEnv "000000000000000000000000"
        (World.init (some "mongodb://localhost/test")
          [⟨sampleId, .string "T", .array []⟩, ⟨otherId, .string "U", .array []⟩])).val
      = { status := 200, body := .text "delete successful" } ∧
    (deleteBook goodEnv "000000000000000000000000"
        (deleteBook goodEnv "000000000000000000000000"
          (World.init (some "mongodb://localhost/test")
            [⟨sampleId, .string "T", .array []⟩, ⟨otherId, .string "U", .array []⟩])).world).val
      = { status := 200, body := .text "no book exists" } ∧
    (deleteBook goodEnv "000000000000000000000000" freshWorld).val
      = { status := 200, body := .text "no book exists" } :=
  have h := deleteBook_by_id goodEnv "000000000000000000000000" sampleId
    (World.init (some "mongodb://localhost/test")
      [⟨sampleId, .string "T", .array []⟩, ⟨otherId, .string "U", .array []⟩])
    (by decide) (by decide) rfl rfl
  have h1 := h.1 ⟨_, List.mem_cons_self _ _, rfl⟩
  ⟨h1.1, ((h1.2.2 (by decide)).2 goodEnv rfl).1,
    ((deleteBook_by_id goodEnv "000000000000000000000000" sampleId freshWorld
      (by decide) (by decide) rfl rfl).2 (fun _ hd => absurd hd (List.not_mem_nil _))).1⟩

theorem findOne_append_fresh (oid : ObjectId) (books : List Doc) (d : Doc)
    (hfresh : ∀ b ∈ books, b._id ≠ oid) (hd : d._id = oid) :
    Collection.findOne oid (books ++ [d]) = some d := by
  have h1 : books.find? (fun b => b._id == oid) = none := by
    rw [List.find?_eq_none]
    intro x hx
    simpa using hfresh x hx
  simp [Collection.findOne, List.find?_append, h1, hd]

/-- C5: with a truthy title, the database answering and the assigned identifier
not yet in the catalog, `POST /api/books` returns the object `{_id, title}` whose
`_id` is a valid identifier string, and a following `GET /api/books/:id` with
that `_id` returns the full view with the same `_id`, the same title and no
comments. -/
theorem create_then_get (env : Env) (body : ReqBody) (w : World)
    (ht : body.title.truthy = true)
    (hconn : (getBooksCollection env w).val = .ok ()) (hop : env.opOk = true)
    (hfresh : ∀ d ∈ w.books, d._id ≠ env.freshId) :
    ∃ id : String,
      (createBook env body w).val = { status := 200, body := .jsonCreated id body.title } ∧
      ObjectId.isValid id = true ∧
      ∀ env2 : Env, env2.opOk = true →
        (getBook env2 id (createBook env body w).world).val =
          { status := 200,
            body := .jsonBook { _id := id, title := body.title, comments := [] } } := by
  have hres := createBook_result env body w ht hconn hop hfresh
  refine ⟨env.freshId.toString, by rw [hres]; rfl, isValid_toString _, fun env2 hop2 => ?_⟩
  have hcache : (createBook env body w).world.booksCollectionPromise = some (.ok ()) := by
    rw [hres]
    exact getBooksCollection_ok_cached env w hconn
  have hc2 : (getBooksCollection env2 (createBook env body w).world).val = .ok () := by
    rw [getBooksCollection_resolved env2 _ hcache]
  rw [getBook_result env2 _ env.freshId _ (isValid_toString _) (ofString_toString _) hc2 hop2]
  have hbooks : (createBook env body w).world.books
      = w.books ++ [⟨env.freshId, body.title, .array []⟩] := by
    rw [hres]
  rw [hbooks, findOne_append_fresh env.freshId w.books _ hfresh rfl]
  rfl

/-- Witness of `create_then_get`: the title "T" created in a freshly loaded module
with an empty catalog, then read back. -/
theorem create_then_get_witness :
    ∃ id : String,
      (createBook goodEnv ⟨.string "T", .undefined⟩ freshWorld).val =
        { status := 200, body := .jsonCreated id (.string "T") } ∧
      ObjectId.isValid id = true ∧
      ∀ env2 : Env, env2.opOk = true →
        (getBook env2 id (createBook goodEnv ⟨.string "T", .undefined⟩ freshWorld).world).val =
          { status := 200,
            body := .jsonBook { _id := id, title := .string "T", comments := [] } } :=
  create_then_get goodEnv ⟨.string "T", .undefined⟩ freshWorld rfl rfl rfl
    (fun _ hd => absurd hd (List.not_mem_nil _))

/-! ## Appending comments -/

theorem findOneAndUpdate_unique (oid : ObjectId) (c : JSValue) (d d1 : Doc)
    (hpush : pushComment c d = .ok d1) (hid1 : d1._id = oid) :
    ∀ books : List Doc, books.filter (fun b => b._id == oid) = [d] →
      ∃ books1, Collection.findOneAndUpdate oid c books = .ok (some d1, books1) ∧
        books1.filter (fun b => b._id == oid) = [d1] := by
  intro books
  induction books with
  | nil => intro h; simp at h
  | cons b bs ih =>
    intro h
    by_cases hb : (b._id == oid) = true
    · simp only [List.filter_cons, hb, if_true, List.cons.injEq] at h
      obtain ⟨hbd, hrest⟩ := h
      subst hbd
      refine ⟨d1 :: bs, by simp [Collection.findOneAndUpdate, hb, hpush], ?_⟩
      have h1 : (d1._id == oid) = true := by simp [hid1]
      simp only [List.filter_cons, h1, if_true, hrest]
    · simp only [List.filter_cons, hb, if_false] at h
      obtain ⟨books1, hf, hfil⟩ := ih h
      refine ⟨b :: books1, by simp [Collection.findOneAndUpdate, hb, hf], ?_⟩
      simp only [List.filter_cons, hb, if_false]
      exact hfil

theorem findOne_of_filter_singleton (oid : ObjectId) (d : Doc) :
    ∀ books : List Doc, books.filter (fun b => b._id == oid) = [d] →
      Collection.findOne oid books = some d := by
  intro books
  induction books with
  | nil => intro h; simp at h
  | cons b bs ih =>
    intro h
    by_cases hb : (b._id == oid) = true
    · simp only [List.filter_cons, hb, if_true, List.cons.injEq] at h
      rw [← h.1]
      simp [Collection.findOne, List.find?_cons, hb]
    · simp only [List.filter_cons, hb, if_false] at h
      have := ih h
      simp only [Collection.findOne] at this
      simp [Collection.findOne, List.find?_cons, hb, this]

theorem addComment_step (env : Env) (oid : ObjectId) (body : ReqBody) (w : World)
    (title : JSValue) (cs : List JSValue)
    (hcache : w.booksCollectionPromise = some (.ok ()))
    (hfilter : w.books.filter (fun b => b._id == oid) = [⟨oid, title, .array cs⟩])
    (hop : env.opOk = true) (hc : body.comment.truthy = true) :
    (addComment env oid.toString body w).val =
      sendJson (.jsonBook ⟨oid.toString, title, cs ++ [body.comment]⟩) ∧
    (addComment env oid.toString body w).world.booksCollectionPromise = some (.ok ()) ∧
    (addComment env oid.toString body w).world.books.filter (fun b => b._id == oid) =
      [⟨oid, title, .array (cs ++ [body.comment])⟩] := by
  obtain ⟨books1, hf, hfil⟩ := findOneAndUpdate_unique oid body.comment
    ⟨oid, title, .array cs⟩ ⟨oid, title, .array (cs ++ [body.comment])⟩ rfl rfl w.books hfilter
  have hg := getBooksCollection_resolved env w hcache
  simp [addComment, addCommentTry, catchError, isValid_toString, ofString_toString, hg, hop, hc,
    hf, hfil, hcache, buildBook, arrayOrEmpty]

theorem addComments_run (oid : ObjectId) (title : JSValue) :
    ∀ (posts : List (Env × ReqBody)) (cs : List JSValue) (w : World),
      w.booksCollectionPromise = some (.ok ()) →
      w.books.filter (fun b => b._id == oid) = [⟨oid, title, .array cs⟩] →
      (∀ p ∈ posts, p.1.opOk = true ∧ p.2.comment.truthy = true) →
      (run (commentRequests oid.toString posts) w).booksCollectionPromise = some (.ok ()) ∧
      (run (commentRequests oid.toString posts) w).books.filter (fun b => b._id == oid) =
        [⟨oid, title, .array (cs ++ posts.map (fun p => p.2.comment))⟩] ∧
      ∀ k, k < posts.length →
        (responses (commentRequests oid.toString posts) w)[k]? =
          some (sendJson (.jsonBook ⟨oid.toString, title,
            cs ++ (posts.take (k + 1)).map (fun p => p.2.comment)⟩)) := by
  intro posts
  induction posts with
  | nil =>
    intro cs w hcache hfilter _
    refine ⟨hcache, by simpa [commentRequests, run] using hfilter, fun k hk => ?_⟩
    simp at hk
  | cons p ps ih =>
    intro cs w hcache hfilter hposts
    have hp := hposts p (List.mem_cons_self _ _)
    obtain ⟨hval, hcache1, hfilter1⟩ :=
      addComment_step p.1 oid p.2 w title cs hcache hfilter hp.1 hp.2
    obtain ⟨ih1, ih2, ih3⟩ := ih (cs ++ [p.2.comment])
      (addComment p.1 oid.toString p.2 w).world hcache1 hfilter1
      (fun q hq => hposts q (List.mem_cons_of_mem _ hq))
    have hrun : run (commentRequests oid.toString (p :: ps)) w =
        run (commentRequests oid.toString ps) (addComment p.1 oid.toString p.2 w).world := by
      simp [commentRequests, run, handle]
    have hresp : responses (commentRequests oid.toString (p :: ps)) w =
        (addComment p.1 oid.toString p.2 w).val ::
          responses (commentRequests oid.toString ps) (addComment p.1 oid.toString p.2 w).world := by
      simp [commentRequests, responses, handle]
    refine ⟨by rw [hrun]; exact ih1, ?_, ?_⟩
    · rw [hrun, ih2]
      simp
    · intro k hk
      rw [hresp]
      cases k with
      | zero => simp [hval]
      | succ k =>
        have hk2 : k < ps.length := by simpa using hk
        simp only [List.getElem?_cons_succ]
        rw [ih3 k hk2]
        simp

/-- C6: after creating a book (truthy title, database answering, assigned
identifier not yet in the catalog) and then posting the truthy comments
`c1, ..., cn` in that order to that book, the database answering each time and
no other request in between: the `k`-th POST returns the full view whose comments
are `c1, ..., ck` (so they end with the comment just appended),
`GET /api/books/:id` then returns the comments `c1, ..., cn` in append order,
and in `GET /api/books` an entry of that identifier exists and every such entry
has `commentcount` equal to `n`. -/
theorem comments_in_append_order (env : Env) (body : ReqBody) (w : World)
    (posts : List (Env × ReqBody))
    (ht : body.title.truthy = true)
    (hconn : (getBooksCollection env w).val = .ok ()) (hop : env.opOk = true)
    (hfresh : ∀ d ∈ w.books, d._id ≠ env.freshId)
    (hposts : ∀ p ∈ posts, p.1.opOk = true ∧ p.2.comment.truthy = true) :
    (createBook env body w).val =
      { status := 200, body := .jsonCreated env.freshId.toString body.title } ∧
    (responses (commentRequests env.freshId.toString posts)
      (createBook env body w).world).length = posts.length ∧
    (∀ k, k < posts.length →
      (responses (commentRequests env.freshId.toString posts) (createBook env body w).world)[k]? =
        some
          { status := 200,
            body := .jsonBook ⟨env.freshId.toString, body.title,
              (posts.take (k + 1)).map (fun p => p.2.comment)⟩ }) ∧
    (∀ env2 : Env, env2.opOk = true →
      (getBook env2 env.freshId.toString
        (run (commentRequests env.freshId.toString posts) (createBook env body w).world)).val =
        { status := 200,
          body := .jsonBook ⟨env.freshId.toString, body.title,
            posts.map (fun p => p.2.comment)⟩ }) ∧
    (∀ env2 : Env, env2.opOk = true →
      ∃ items : List ListItem,
        (listBooks env2
          (run (commentRequests env.freshId.toString posts) (createBook env body w).world)).val =
          { status := 200, body := .jsonList items } ∧
        (∃ item ∈ items, item._id = env.freshId.toString) ∧
        ∀ item ∈ items, item._id = env.freshId.toString →
          item.commentcount = posts.length ∧ item.title = body.title) := by
  have hres := createBook_result env body w ht hconn hop hfresh
  have hcache : (createBook env body w).world.booksCollectionPromise = some (.ok ()) := by
    rw [hres]
    exact getBooksCollection_ok_cached env w hconn
  have hfilter : (createBook env body w).world.books.filter (fun b => b._id == env.freshId) =
      [⟨env.freshId, body.title, .array []⟩] := by
    rw [hres]
    have h0 : w.books.filter (fun b => b._id == env.freshId) = [] := by
      rw [List.filter_eq_nil_iff]
      intro a ha
      simpa using hfresh a ha
    simp [List.filter_append, h0]
  obtain ⟨h1, h2, h3⟩ := addComments_run env.freshId body.title posts []
    (createBook env body w).world hcache hfilter hposts
  have hlen : ∀ (ps : List (Env × ReqBody)) (w2 : World),
      (responses (commentRequests env.freshId.toString ps) w2).length = ps.length := by
    intro ps
    induction ps with
    | nil => intro w2; rfl
    | cons p ps ih => intro w2; simp [commentRequests, responses] at ih ⊢; exact ih _
  refine ⟨by rw [hres]; rfl, hlen _ _, fun k hk => ?_, fun env2 hop2 => ?_, fun env2 hop2 => ?_⟩
  · rw [h3 k hk]
    simp [sendJson]
  · have hc2 := getBooksCollection_resolved env2 _ h1
    rw [getBook_result env2 _ env.freshId _ (isValid_toString _) (ofString_toString _)
      (by rw [hc2]) hop2]
    have hfind : Collection.findOne env.freshId
        (run (commentRequests env.freshId.toString posts) (createBook env body w).world).books
        = some ⟨env.freshId, body.title, .array ([] ++ posts.map (fun p => p.2.comment))⟩ := by
      exact findOne_of_filter_singleton _ _ _ h2
    rw [hfind]
    simp [sendJson, buildBook, arrayOrEmpty]
  · have hc2 := getBooksCollection_resolved env2 _ h1
    rw [listBooks_result env2 _ (by rw [hc2]) hop2]
    refine ⟨_, rfl, ?_, ?_⟩
    · have hmem : (⟨env.freshId, body.title, .array ([] ++ posts.map (fun p => p.2.comment))⟩ : Doc)
          ∈ (run (commentRequests env.freshId.toString posts)
              (createBook env body w).world).books := by
        have : (⟨env.freshId, body.title, .array ([] ++ posts.map (fun p => p.2.comment))⟩ : Doc)
            ∈ (run (commentRequests env.freshId.toString posts)
              (createBook env body w).world).books.filter (fun b => b._id == env.freshId) := by
          rw [h2]
          exact List.mem_singleton.2 rfl
        exact (List.mem_filter.1 this).1
      exact ⟨_, List.mem_map.2 ⟨_, hmem, rfl⟩, rfl⟩
    · intro item hitem hid
      obtain ⟨b, hb, hbi⟩ := List.mem_map.1 hitem
      subst hbi
      have hbid : b._id = env.freshId := toString_injective _ _ hid
      have hbf : b ∈ (run (commentRequests env.freshId.toString posts)
          (createBook env body w).world).books.filter (fun b => b._id == env.freshId) :=
        List.mem_filter.2 ⟨hb, by simp [hbid]⟩
      rw [h2] at hbf
      have hbe := List.mem_singleton.1 hbf
      subst hbe
      simp [buildListItem, arrayOrEmpty]

/-- Witness of `comments_in_append_order`: the spec's case, three comments posted
to a book created in a freshly loaded module. -/
theorem comments_in_append_order_witness :
    (getBook goodEnv sampleId.toString
        (run (commentRequests sampleId.toString threePosts)
          (createBook goodEnv ⟨.string "T", .undefined⟩ freshWorld).world)).val =
      { status := 200,
        body := .jsonBook ⟨sampleId.toString, .string "T",
          [.string "a", .string "b", .string "c"]⟩ } ∧
    ∃ items : List ListItem,
      (listBooks goodEnv
          (run (commentRequests sampleId.toString threePosts)
            (createBook goodEnv ⟨.string "T", .undefined⟩ freshWorld).world)).val =
        { status := 200, body := .jsonList items } ∧
      (∃ item ∈ items, item._id = sampleId.toString) ∧
      ∀ item ∈ items, item._id = sampleId.toString →
        item.commentcount = 3 ∧ item.title = .string "T" :=
  have h := comments_in_append_order goodEnv ⟨.string "T", .undefined⟩ freshWorld threePosts
    rfl rfl rfl (fun _ hd => absurd hd (List.not_mem_nil _))
    (by
      intro p hp
      simp only [threePosts, List.mem_cons, List.mem_singleton, List.mem_nil_iff, or_false] at hp
      rcases hp with rfl | rfl | rfl <;> exact ⟨rfl, rfl⟩)
  ⟨h.2.2.2.1 goodEnv rfl, h.2.2.2.2 goodEnv rfl⟩

/-! ## The catalog across requests -/

theorem pushComment_ok (c : JSValue) (d d1 : Doc) (h : pushComment c d = .ok d1) :
    d1._id = d._id ∧ d1.title = d.title ∧
    ((∃ cs, d.comments = .array cs ∧ d1.comments = .array (cs ++ [c])) ∨
      (d.comments = .undefined ∧ d1.comments = .array [c])) := by
  unfold pushComment at h
  split at h
  · next xs hx =>
    simp only [Except.ok.injEq] at h
    subst h
    exact ⟨rfl, rfl, Or.inl ⟨xs, hx, rfl⟩⟩
  · next hx =>
    simp only [Except.ok.injEq] at h
    subst h
    exact ⟨rfl, rfl, Or.inr ⟨hx, rfl⟩⟩
  · simp at h

theorem findOneAndUpdate_some (oid : ObjectId) (c : JSValue) :
    ∀ (books : List Doc) (d1 : Doc) (books1 : List Doc),
      Collection.findOneAndUpdate oid c books = .ok (some d1, books1) →
      ∃ pre d post, books = pre ++ d :: post ∧ books1 = pre ++ d1 :: post ∧ d._id = oid ∧
        pushComment c d = .ok d1 := by
  intro books
  induction books with
  | nil => intro d1 books1 h; simp [Collection.findOneAndUpdate] at h
  | cons b bs ih =>
    intro d1 books1 h
    by_cases hb : (b._id == oid) = true
    · cases hp : pushComment c b with
      | error e => simp [Collection.findOneAndUpdate, hb, hp] at h
      | ok b1 =>
        simp only [Collection.findOneAndUpdate, hb, if_true, hp, Except.ok.injEq,
          Prod.mk.injEq, Option.some.injEq] at h
        obtain ⟨h1, h2⟩ := h
        subst h1
        subst h2
        exact ⟨[], b, bs, rfl, rfl, by simpa using hb, hp⟩
    · rcases hf : Collection.findOneAndUpdate oid c bs with e | ⟨r, bs1⟩
      · simp [Collection.findOneAndUpdate, hb, hf] at h
      · simp only [Collection.findOneAndUpdate, hb, hf, Bool.false_eq_true, if_false,
          Except.ok.injEq, Prod.mk.injEq] at h
        obtain ⟨h1, h2⟩ := h
        subst h1
        subst h2
        obtain ⟨pre, d, post, hs, hs1, hd, hp⟩ := ih d1 bs1 hf
        exact ⟨b :: pre, d, post, by rw [hs]; rfl, by rw [hs1]; rfl, hd, hp⟩

/-- How one request can change the catalog. -/
theorem handle_books (env : Env) (req : Request) (w : World) :
    (handle env req w).world.books = w.books ∨
    (∃ body, req = .createBook body ∧ body.title.truthy = true ∧
      (∀ b ∈ w.books, b._id ≠ env.freshId) ∧
      (handle env req w).world.books = w.books ++ [⟨env.freshId, body.title, .array []⟩]) ∨
    (handle env req w).world.books = [] ∨
    (∃ oid, (handle env req w).world.books = w.books.eraseP (fun b => b._id == oid)) ∨
    (∃ id body pre d d1 post, req = .addComment id body ∧ body.comment.truthy = true ∧
      w.books = pre ++ d :: post ∧ (handle env req w).world.books = pre ++ d1 :: post ∧
      pushComment body.comment d = .ok d1 ∧
      (handle env req w).val = sendJson (.jsonBook (buildBook d1))) := by
  have hb := (getBooksCollection_books env w).1
  cases req with
  | listBooks =>
    left
    cases hc : (getBooksCollection env w).val <;> by_cases hop : env.opOk = true <;>
      simp [handle, listBooks, listBooksTry, catchError, hc, hop, hb]
  | createBook body =>
    by_cases ht : body.title.truthy = true
    · cases hc : (getBooksCollection env w).val with
      | error e => left; simp [handle, createBook, createBookTry, catchError, ht, hc, hb]
      | ok u =>
        by_cases hop : env.opOk = true
        · by_cases hany : w.books.any (fun b => b._id == env.freshId) = true
          · left
            simp [handle, createBook, createBookTry, catchError, ht, hc, hop, hb,
              Collection.insertOne, hany]
          · right; left
            refine ⟨body, rfl, ht, ?_, ?_⟩
            · intro b hbm hbe
              exact hany (List.any_eq_true.2 ⟨b, hbm, by simp [hbe]⟩)
            · simp [handle, createBook, createBookTry, catchError, ht, hc, hop, hb,
                Collection.insertOne, hany]
        · left; simp [handle, createBook, createBookTry, catchError, ht, hc, hop, hb]
    · left; simp [handle, createBook, ht]
  | deleteAll =>
    cases hc : (getBooksCollection env w).val with
    | error e => left; simp [handle, deleteAll, deleteAllTry, catchError, hc, hb]
    | ok u =>
      by_cases hop : env.opOk = true
      · right; right; left
        simp [handle, deleteAll, deleteAllTry, catchError, hc, hop, Collection.deleteMany]
      · left; simp [handle, deleteAll, deleteAllTry, catchError, hc, hop, hb]
  | getBook id =>
    left
    by_cases hv : ObjectId.isValid id = true
    · obtain ⟨oid, ho⟩ := ofString_isSome id hv
      cases hc : (getBooksCollection env w).val with
      | error e => simp [handle, getBook, getBookTry, catchError, hv, hc, hb]
      | ok u =>
        by_cases hop : env.opOk = true
        · cases hf : Collection.findOne oid w.books <;>
            simp [handle, getBook, getBookTry, catchError, hv, hc, ho, hop, hb, hf]
        · simp [handle, getBook, getBookTry, catchError, hv, hc, ho, hop, hb]
    · simp [handle, getBook, hv]
  | addComment id body =>
    by_cases hv : ObjectId.isValid id = true
    · by_cases hcm : body.comment.truthy = true
      · obtain ⟨oid, ho⟩ := ofString_isSome id hv
        cases hc : (getBooksCollection env w).val with
        | error e =>
          left; simp [handle, addComment, addCommentTry, catchError, hv, hcm, hc, hb]
        | ok u =>
          by_cases hop : env.opOk = true
          · rcases hf : Collection.findOneAndUpdate oid body.comment w.books
              with e | ⟨_ | v, b1⟩
            · left
              simp [handle, addComment, addCommentTry, catchError, hv, hcm, hc, ho, hop, hb, hf]
            · left
              simp [handle, addComment, addCommentTry, catchError, hv, hcm, hc, ho, hop, hb, hf]
            · right; right; right; right
              obtain ⟨pre, d, post, hs, hs1, -, hp⟩ :=
                findOneAndUpdate_some oid body.comment w.books v b1 hf
              refine ⟨id, body, pre, d, v, post, rfl, hcm, hs, ?_, hp, ?_⟩
              · simp [handle, addComment, addCommentTry, catchError, hv, hcm, hc, ho, hop, hb,
                  hf, hs1]
              · simp [handle, addComment, addCommentTry, catchError, hv, hcm, hc, ho, hop, hb,
                  hf]
          · left
            simp [handle, addComment, addCommentTry, catchError, hv, hcm, hc, ho, hop, hb]
      · left; simp [handle, addComment, hv, hcm]
    · left; simp [handle, addComment, hv]
  | deleteBook id =>
    by_cases hv : ObjectId.isValid id = true
    · obtain ⟨oid, ho⟩ := ofString_isSome id hv
      cases hc : (getBooksCollection env w).val with
      | error e => left; simp [handle, deleteBook, deleteBookTry, catchError, hv, hc, hb]
      | ok u =>
        by_cases hop : env.opOk = true
        · right; right; right; left
          refine ⟨oid, ?_⟩
          by_cases hd : (Collection.deleteOne oid w.books).1 = 0 <;>
            simp [handle, deleteBook, deleteBookTry, catchError, hv, hc, ho, hop, hb, hd] <;>
            simp [Collection.deleteOne]
        · left; simp [handle, deleteBook, deleteBookTry, catchError, hv, hc, ho, hop, hb]
    · left; simp [handle, deleteBook, hv]

theorem StoreInv.mono (hist hist2 : List (Env × Request)) (books : List Doc)
    (hsub : ∀ x ∈ hist, x ∈ hist2) (h : StoreInv hist books) : StoreInv hist2 books := by
  refine ⟨fun d hd => ?_, h.2⟩
  obtain ⟨h1, h2, env, body, hm, he, ht⟩ := h.1 d hd
  exact ⟨h1, h2, env, body, hsub _ hm, he, ht⟩

theorem handle_inv (hist : List (Env × Request)) (env : Env) (req : Request) (w : World)
    (h : StoreInv hist w.books) :
    StoreInv (hist ++ [(env, req)]) (handle env req w).world.books := by
  have hmono : StoreInv (hist ++ [(env, req)]) w.books :=
    StoreInv.mono hist _ _ (fun x hx => List.mem_append_left _ hx) h
  rcases handle_books env req w with hsame | ⟨body, hreq, ht, hfresh, hnew⟩ | hnil |
    ⟨oid, herase⟩ | ⟨id, body, pre, d, d1, post, hreq, hc, hs, hs1, hp, -⟩
  · rw [hsame]
    exact hmono
  · rw [hnew]
    constructor
    · intro x hx
      rcases List.mem_append.1 hx with hx | hx
      · exact hmono.1 x hx
      · have hxe := List.mem_singleton.1 hx
        subst hxe
        exact ⟨ht, ⟨[], rfl⟩, env, body, by simp [hreq], rfl, rfl⟩
    · rw [List.map_append, List.nodup_append]
      refine ⟨h.2, by simp, ?_⟩
      intro a ha hb
      simp only [List.map_cons, List.map_nil, List.mem_singleton] at hb
      obtain ⟨b, hbm, hba⟩ := List.mem_map.1 ha
      exact hfresh b hbm (by rw [hba, hb])
  · rw [hnil]
    exact ⟨fun d hd => absurd hd (List.not_mem_nil _), List.nodup_nil⟩
  · rw [herase]
    refine ⟨fun x hx => hmono.1 x (List.mem_of_mem_eraseP hx), ?_⟩
    exact List.Nodup.sublist ((List.eraseP_sublist _).map _) h.2
  · obtain ⟨hid, htitle, hcom⟩ := pushComment_ok _ _ _ hp
    have hdm : d ∈ w.books := by rw [hs]; simp
    obtain ⟨hdt, ⟨cs, hdc⟩, envc, bodyc, hmem, hfid, htt⟩ := hmono.1 d hdm
    rw [hs1]
    constructor
    · intro x hx
      rcases List.mem_append.1 hx with hx | hx
      · exact hmono.1 x (by rw [hs]; exact List.mem_append_left _ hx)
      · rcases List.mem_cons.1 hx with hx | hx
        · subst hx
          refine ⟨by rw [htitle]; exact hdt, ?_, envc, bodyc, hmem, by rw [hid]; exact hfid,
            by rw [htitle]; exact htt⟩
          rcases hcom with ⟨cs2, -, h2⟩ | ⟨-, h2⟩
          · exact ⟨_, h2⟩
          · exact ⟨_, h2⟩
        · exact hmono.1 x (by rw [hs]; exact List.mem_append_right _ (List.mem_cons_of_mem _ hx))
    · have h2 := h.2
      rw [hs] at h2
      simpa [List.map_append, List.map_cons, hid] using h2

theorem run_inv : ∀ (reqs hist : List (Env × Request)) (w : World),
    StoreInv hist w.books → StoreInv (hist ++ reqs) (run reqs w).books := by
  intro reqs
  induction reqs with
  | nil => intro hist w h; simpa [run] using h
  | cons x rest ih =>
    intro hist w h
    obtain ⟨env, req⟩ := x
    have h1 := ih (hist ++ [(env, req)]) (handle env req w).world (handle_inv hist env req w h)
    simpa [run, List.append_assoc] using h1

/-- What one request does to a book that is stored before and after it. -/
theorem handle_keeps_books (hist : List (Env × Request)) (env : Env) (req : Request) (w : World)
    (h : StoreInv hist w.books) :
    ∀ d ∈ w.books, ∀ d1 ∈ (handle env req w).world.books, d1._id = d._id →
      d1.title = d.title ∧
      (d1.comments = d.comments ∨
        ∃ id body cs, req = .addComment id body ∧ body.comment.truthy = true ∧
          d.comments = .array cs ∧ d1.comments = .array (cs ++ [body.comment]) ∧
          (handle env req w).val = { status := 200, body := .jsonBook (buildBook d1) }) := by
  intro d hd d1 hd1 hid
  have hinj := List.inj_on_of_nodup_map h.2
  have hold : d1 ∈ w.books → d1.title = d.title ∧ d1.comments = d.comments := by
    intro hm
    have := hinj hm hd hid
    subst this
    exact ⟨rfl, rfl⟩
  rcases handle_books env req w with hsame | ⟨body, hreq, ht, hfresh, hnew⟩ | hnil |
    ⟨oid, herase⟩ | ⟨id, body, pre, x, x1, post, hreq, hc, hs, hs1, hp, hval⟩
  · rw [hsame] at hd1
    exact ⟨(hold hd1).1, Or.inl (hold hd1).2⟩
  · rw [hnew] at hd1
    rcases List.mem_append.1 hd1 with hm | hm
    · exact ⟨(hold hm).1, Or.inl (hold hm).2⟩
    · have hxe := List.mem_singleton.1 hm
      subst hxe
      exact absurd hid.symm (hfresh d hd)
  · rw [hnil] at hd1
    exact absurd hd1 (List.not_mem_nil _)
  · rw [herase] at hd1
    have hm := List.mem_of_mem_eraseP hd1
    exact ⟨(hold hm).1, Or.inl (hold hm).2⟩
  · obtain ⟨hxid, hxtitle, hxcom⟩ := pushComment_ok _ _ _ hp
    have hxm : x ∈ w.books := by rw [hs]; simp
    rw [hs1] at hd1
    rcases List.mem_append.1 hd1 with hm | hm
    · have hm2 : d1 ∈ w.books := by rw [hs]; exact List.mem_append_left _ hm
      exact ⟨(hold hm2).1, Or.inl (hold hm2).2⟩
    · rcases List.mem_cons.1 hm with hm | hm
      · subst hm
        have hxd : x = d := hinj hxm hd (by rw [← hxid, hid])
        subst hxd
        refine ⟨hxtitle, Or.inr ?_⟩
        obtain ⟨-, ⟨cs, hcs⟩, -⟩ := h.1 x hxm
        rcases hxcom with ⟨cs2, h1, h2⟩ | ⟨h1, -⟩
        · exact ⟨id, body, cs2, hreq, hc, h1, h2, by rw [hval]; rfl⟩
        · rw [hcs] at h1
          cases h1
      · have hm2 : d1 ∈ w.books := by
          rw [hs]
          exact List.mem_append_right _ (List.mem_cons_of_mem _ hm)
        exact ⟨(hold hm2).1, Or.inl (hold hm2).2⟩

/-- C10: starting from an empty catalog, after every sequence of requests, every
stored book has a truthy title and a comments field that is a sequence, and was
created by one of the requests under its identifier and with its title;
identifiers are unique. A further request leaves the title of every book that
stays stored as it is, and leaves its comments as they are unless the request
is an add-comment with a truthy comment answered with the full view of that
book, in which case the comments are the former ones with that comment added at
the end. -/
theorem store_invariant (uri : Option String) (reqs : List (Env × Request)) :
    (∀ d ∈ (run reqs (World.init uri [])).books,
      d.title.truthy = true ∧ (∃ cs, d.comments = .array cs) ∧
      ∃ env body, (env, Request.createBook body) ∈ reqs ∧ env.freshId = d._id ∧
        body.title = d.title) ∧
    ((run reqs (World.init uri [])).books.map (fun b => b._id)).Nodup ∧
    (∀ (env : Env) (req : Request),
      ∀ d ∈ (run reqs (World.init uri [])).books,
      ∀ d1 ∈ (handle env req (run reqs (World.init uri []))).world.books,
        d1._id = d._id →
        d1.title = d.title ∧
        (d1.comments = d.comments ∨
          ∃ id body cs, req = .addComment id body ∧ body.comment.truthy = true ∧
            d.comments = .array cs ∧ d1.comments = .array (cs ++ [body.comment]) ∧
            (handle env req (run reqs (World.init uri []))).val =
              { status := 200, body := .jsonBook (buildBook d1) })) := by
  have h0 : StoreInv [] (World.init uri []).books :=
    ⟨fun d hd => absurd hd (List.not_mem_nil _), List.nodup_nil⟩
  have h := run_inv reqs [] (World.init uri []) h0
  rw [List.nil_append] at h
  exact ⟨h.1, h.2, fun env req => handle_keeps_books reqs env req _ h⟩

/-- Witness of `store_invariant`: after creating "T" and commenting "a", the stored
book has its title and the comment; a further comment "b" keeps the title and
adds "b" at the end. -/
theorem store_invariant_witness :
    ((⟨sampleId, .string "T", .array [.string "a"]⟩ : Doc).title.truthy = true ∧
      (∃ cs, (⟨sampleId, .string "T", .array [.string "a"]⟩ : Doc).comments = .array cs) ∧
      ∃ env body, (env, Request.createBook body) ∈ createAndComment ∧
        env.freshId = sampleId ∧ body.title = .string "T") ∧
    ((run createAndComment (World.init (some "mongodb://localhost/test") [])).books.map
      (fun b => b._id)).Nodup ∧
    ((⟨sampleId, .string "T", .array [.string "a", .string "b"]⟩ : Doc).title = .string "T" ∧
      ((⟨sampleId, .string "T", .array [.string "a", .string "b"]⟩ : Doc).comments
          = .array [.string "a"] ∨
        ∃ id body cs,
          Request.addComment "000000000000000000000000" ⟨.undefined, .string "b"⟩
            = .addComment id body ∧
          body.comment.truthy = true ∧
          (JSValue.array [.string "a"]) = .array cs ∧
          (⟨sampleId, .string "T", .array [.string "a", .string "b"]⟩ : Doc).comments
            = .array (cs ++ [body.comment]) ∧
          (handle goodEnv (.addComment "000000000000000000000000" ⟨.undefined, .string "b"⟩)
              (run createAndComment (World.init (some "mongodb://localhost/test") []))).val =
            { status := 200,
              body := .jsonBook
                (buildBook ⟨sampleId, .string "T", .array [.string "a", .string "b"]⟩) })) :=
  have h := store_invariant (some "mongodb://localhost/test") createAndComment
  ⟨h.1 ⟨sampleId, .string "T", .array [.string "a"]⟩ (List.mem_cons_self _ _),
    h.2.1,
    h.2.2 goodEnv (.addComment "000000000000000000000000" ⟨.undefined, .string "b"⟩)
      ⟨sampleId, .string "T", .array [.string "a"]⟩ (List.mem_cons_self _ _)
      ⟨sampleId, .string "T", .array [.string "a", .string "b"]⟩ (List.mem_cons_self _ _) rfl⟩

end Books
